import Mathlib

set_option autoImplicit false

/-!
Shallow embedding of the Discord persona bot (TypeScript/Bun).

The parts of the program embedded here are the ones the verified claims
are about: the persona-by-channel TTL cache and channel utilities
(`utils/channel.ts`), the command-location router (`commands/index.ts`),
the agent-service HTTP client (`services/agent-client.ts`), the chat
session-key map (`commands/chat.ts`), and the auto-chat message handler
(`index.ts`).

Conventions of the embedding:
  * Strings are Lean `String`s; character-level functions work on
    `String.data` (`List Char`).
  * JS `toLowerCase` is modelled on the ASCII range `A`-`Z` (the only
    range the claims exercise; every character outside `a`-`z`/`0`-`9`
    is treated uniformly by the slug and key functions regardless).
  * `await`ed external calls (fetch to the agent service, Discord
    replies) are passed in as explicit `Except`/function parameters: a
    call that would throw is an `Except.error`, a call that returns is
    `Except.ok`.
  * The JS `Map` backing each cache is an association list with unique
    keys maintained by `cacheSet`/`cacheDelete`.
  * Time (`Date.now()`) is an explicit `now : Nat` parameter in
    milliseconds.
-/

/-- ASCII lowercasing of one character. Models JS `toLowerCase` on the
code points the claims exercise (`A`-`Z`); all other characters are kept. -/
def jsLowerChar (c : Char) : Char :=
  if 'A' ≤ c && c ≤ 'Z' then Char.ofNat (c.toNat + 32) else c

/-- Model of JS `String.prototype.toLowerCase` (ASCII range). -/
def jsToLowerCase (s : String) : String :=
  ⟨s.data.map jsLowerChar⟩

/-- The whitespace set of JS `String.prototype.trim` (the code points that
matter plus the common Unicode space separators). -/
def jsIsWhitespace (c : Char) : Bool :=
  c == ' ' || c == '\t' || c == '\n' || c == '\r' ||
  c.toNat == 11 || c.toNat == 12 || c.toNat == 0xA0 ||
  c.toNat == 0xFEFF || c.toNat == 0x2028 || c.toNat == 0x2029

/-- Trim whitespace from both ends of a character list. -/
def trimList (l : List Char) : List Char :=
  ((l.dropWhile jsIsWhitespace).reverse.dropWhile jsIsWhitespace).reverse

/-- Model of JS `String.prototype.trim`. -/
def jsTrim (s : String) : String :=
  ⟨trimList s.data⟩

/-- JS `content.startsWith("/")`: whether the first character is `/`. -/
def startsWithSlash (s : String) : Bool :=
  match s.data with
  | [] => false
  | c :: _ => c == '/'

/-- A character matched by the slug alphabet `[a-z0-9]` of
`slugifyPersonaName`'s first regex. -/
def isSlugChar (c : Char) : Bool :=
  ('a' ≤ c && c ≤ 'z') || ('0' ≤ c && c ≤ '9')

/-- Model of `.replace(/[^a-z0-9]+/g, "-")`: every maximal run of
characters outside `[a-z0-9]` becomes a single hyphen. The boolean state
records whether we are inside such a run (whose hyphen was already
emitted). -/
def collapseNonSlug : Bool → List Char → List Char
  | _, [] => []
  | inRun, c :: cs =>
    if isSlugChar c then c :: collapseNonSlug false cs
    else if inRun then collapseNonSlug true cs
    else '-' :: collapseNonSlug true cs

/-- Model of `.replace(/^-+|-+$/g, "")`: drop the leading and trailing
runs of hyphens. -/
def stripHyphens (l : List Char) : List Char :=
  ((l.dropWhile (fun c => c == '-')).reverse.dropWhile (fun c => c == '-')).reverse

/-- `utils/channel.ts`: `slugifyPersonaName`. Lowercase, trim, collapse
non-`[a-z0-9]` runs to single hyphens, strip outer hyphens. -/
def slugifyPersonaName (name : String) : String :=
  ⟨stripHyphens (collapseNonSlug false (trimList (name.data.map jsLowerChar)))⟩

/-- `types/persona.ts`: the `Persona` interface. -/
structure Persona where
  name : String
  personality : String
  appearance : Option String
  channel_id : Option String
  created_at : String
  updated_at : String
deriving Repr, DecidableEq

/-- One value of the `personaCache` map in `utils/channel.ts`:
`{ persona: Persona | null; expires: number }`. -/
structure CacheEntry where
  persona : Option Persona
  expires : Nat
deriving Repr, DecidableEq

/-- The `personaCache` JS `Map<string, CacheEntry>` as an association
list with unique keys. -/
abbrev PersonaCache := List (String × CacheEntry)

/-- JS `Map.get`. -/
def cacheGet (cache : PersonaCache) (k : String) : Option CacheEntry :=
  match cache with
  | [] => none
  | (k2, v) :: rest => if k2 = k then some v else cacheGet rest k

/-- JS `Map.set`: replace the value of an existing key, otherwise append. -/
def cacheSet (cache : PersonaCache) (k : String) (v : CacheEntry) : PersonaCache :=
  match cache with
  | [] => [(k, v)]
  | (k2, v2) :: rest => if k2 = k then (k2, v) :: rest else (k2, v2) :: cacheSet rest k v

/-- JS `Map.delete`. -/
def cacheDelete (cache : PersonaCache) (k : String) : PersonaCache :=
  match cache with
  | [] => []
  | (k2, v2) :: rest => if k2 = k then rest else (k2, v2) :: cacheDelete rest k

/-- `utils/channel.ts`: `CACHE_TTL_MS = 30000` (30 seconds). -/
def CACHE_TTL_MS : Nat := 30000

/-- `personas.find((p) => p.channel_id === channelId) || null` from
`getPersonaForChannel`. -/
def findPersonaByChannel (personas : List Persona) (channelId : String) : Option Persona :=
  personas.find? (fun p => p.channel_id == some channelId)

/-- The fetch-and-cache path of `getPersonaForChannel` (the `try`/`catch`
after a cache miss): on success store the lookup result with expiry
`now + CACHE_TTL_MS` and return it; on failure return `null` with the
cache untouched. `fetchResult` models the `await agentClient.listPersonas()`
call. -/
def getPersonaFetchPath (cache : PersonaCache) (now : Nat)
    (fetchResult : Except String (List Persona)) (channelId : String) :
    Option Persona × PersonaCache :=
  match fetchResult with
  | Except.ok personas =>
    let persona := findPersonaByChannel personas channelId
    (persona, cacheSet cache channelId { persona := persona, expires := now + CACHE_TTL_MS })
  | Except.error _ => (none, cache)

/-- `utils/channel.ts`: `getPersonaForChannel`. Serve an unexpired cache
entry (`cached.expires > Date.now()`); otherwise fetch, cache and return.
Returns the persona (or `none`) together with the cache after the call. -/
def getPersonaForChannel (cache : PersonaCache) (now : Nat)
    (fetchResult : Except String (List Persona)) (channelId : String) :
    Option Persona × PersonaCache :=
  match cacheGet cache channelId with
  | some cached =>
    if cached.expires > now then (cached.persona, cache)
    else getPersonaFetchPath cache now fetchResult channelId
  | none => getPersonaFetchPath cache now fetchResult channelId

/-- `utils/channel.ts`: `invalidatePersonaCache` — delete one key when a
channel id is given, otherwise clear the whole map. -/
def invalidatePersonaCache (cache : PersonaCache) (channelId : Option String) : PersonaCache :=
  match channelId with
  | some id => cacheDelete cache id
  | none => []

/-- `utils/channel.ts`: `isAdminChannel` — case-insensitive name equality. -/
def isAdminChannel (channelName adminChannelName : String) : Bool :=
  jsToLowerCase channelName == jsToLowerCase adminChannelName

/-- `commands/chat.ts`: `getSessionKey` — the key of the `activeSessions`
map, `` `${userId}:${personaName.toLowerCase()}` ``. -/
def getSessionKey (userId personaName : String) : String :=
  userId ++ ":" ++ jsToLowerCase personaName

/-- A Discord guild text channel, as far as the router reads it. -/
structure GuildTextChannel where
  id : String
  name : String
deriving Repr, DecidableEq

/-- `interaction.channel` as `validateCommandLocation` sees it: absent, a
guild `TextChannel` instance, or some other channel type. -/
inductive InteractionChannel where
  | noChannel
  | text (ch : GuildTextChannel)
  | other
deriving Repr, DecidableEq

/-- The slice of `ChatInputCommandInteraction` the router reads:
`commandName`, `options.getSubcommand(false)`, and `channel`. -/
structure Interaction where
  commandName : String
  subcommand : Option String
  channel : InteractionChannel
deriving Repr, DecidableEq

/-- `commands/index.ts`: `ADMIN_CHANNEL_COMMANDS`. -/
def ADMIN_CHANNEL_COMMANDS : List String :=
  ["persona create", "persona delete", "persona list", "persona rename"]

/-- `commands/index.ts`: `PERSONA_CHANNEL_COMMANDS`. -/
def PERSONA_CHANNEL_COMMANDS : List String :=
  ["persona edit", "imagine", "remember"]

/-- The `{ valid; error?; persona? }` object `validateCommandLocation`
returns. -/
structure ValidationResult where
  valid : Bool
  error : Option String
  persona : Option Persona
deriving Repr, DecidableEq

/-- The `fullCommand` string built by `validateCommandLocation`. -/
def fullCommandOf (i : Interaction) : String :=
  match i.subcommand with
  | some sub => i.commandName ++ " " ++ sub
  | none => i.commandName

/-- `commands/index.ts`: `validateCommandLocation`. `personaLookup`
models the `await getPersonaForChannel(channel.id)` call. -/
def validateCommandLocation (adminChannelName : String)
    (personaLookup : String → Option Persona) (i : Interaction) : ValidationResult :=
  match i.channel with
  | InteractionChannel.text ch =>
    let fullCommand := fullCommandOf i
    if ADMIN_CHANNEL_COMMANDS.contains fullCommand then
      if !(isAdminChannel ch.name adminChannelName) then
        { valid := false,
          error := some ("This command can only be used in #" ++ adminChannelName),
          persona := none }
      else { valid := true, error := none, persona := none }
    else if PERSONA_CHANNEL_COMMANDS.contains fullCommand then
      match personaLookup ch.id with
      | some p => { valid := true, error := none, persona := some p }
      | none =>
        { valid := false,
          error := some "This command can only be used in a persona channel (under the Personas category).",
          persona := none }
    else { valid := true, error := none, persona := none }
  | _ =>
    { valid := false,
      error := some "This command must be used in a server text channel.",
      persona := none }

/-- An `interaction.reply` or `interaction.followUp` call made by
`handleCommand` itself. -/
inductive BotReply where
  | reply (content : String) (ephemeral : Bool)
  | followUp (content : String) (ephemeral : Bool)
deriving Repr, DecidableEq

/-- What one `handleCommand` call did: the handler it dispatched to (with
the persona argument it passed, `none` when the handler takes only the
interaction) and the replies `handleCommand` itself sent. -/
structure HandleOutcome where
  handlerRun : Option (String × Option Persona)
  replies : List BotReply
deriving Repr, DecidableEq

/-- The `switch (commandName)` dispatch of `handleCommand`:
`handlePersonaCommand(interaction, validation.persona)`,
`handleImagine(interaction, validation.persona)`,
`handleMemories(interaction)`, `handleRemember(interaction)`. -/
def dispatchHandler (i : Interaction) (validationPersona : Option Persona) :
    Option (String × Option Persona) :=
  if i.commandName = "persona" then some ("handlePersonaCommand", validationPersona)
  else if i.commandName = "imagine" then some ("handleImagine", validationPersona)
  else if i.commandName = "memories" then some ("handleMemories", none)
  else if i.commandName = "remember" then some ("handleRemember", none)
  else none

/-- `commands/index.ts`: `handleCommand`. `handlerResult` models what the
dispatched handler did (`Except.error msg` = it threw an `Error` with that
message); `interpretErrorCall` models `agentClient.interpretError` applied
to the arguments `handleCommand` passes; `repliedOrDeferred` is
`interaction.replied || interaction.deferred` at catch time. -/
def handleCommand (adminChannelName : String)
    (personaLookup : String → Option Persona)
    (handlerResult : Except String Unit)
    (interpretErrorCall : String → Option String → Option String → Except String String)
    (repliedOrDeferred : Bool)
    (i : Interaction) : HandleOutcome :=
  let validation := validateCommandLocation adminChannelName personaLookup i
  if validation.valid = false then
    { handlerRun := none,
      replies := [BotReply.reply (validation.error.getD "") true] }
  else
    match dispatchHandler i validation.persona with
    | none =>
      { handlerRun := none,
        replies := [BotReply.reply ("Unknown command: " ++ i.commandName) true] }
    | some hr =>
      match handlerResult with
      | Except.ok _ => { handlerRun := some hr, replies := [] }
      | Except.error errorMessage =>
        let userMessage :=
          match interpretErrorCall errorMessage
              (some ("Failed to execute /" ++ i.commandName))
              (Option.map Persona.name validation.persona) with
          | Except.ok m => m
          | Except.error _ => errorMessage
        { handlerRun := some hr,
          replies := [if repliedOrDeferred
                      then BotReply.followUp userMessage true
                      else BotReply.reply userMessage true] }

/-- The effect of `handlePersonaCommand` (`commands/index.ts`) on the
persona cache, given the subcommand and the persona `validateCommandLocation`
attached: `create`, `delete` and `rename` call `invalidatePersonaCache()`
(clear all); `edit` calls
`invalidatePersonaCache(persona.channel_id || undefined)` when a persona
was found (a falsy channel id clears all); `list` and unknown subcommands
never touch the cache. -/
def handlePersonaCommandCacheEffect (subcommand : String) (persona : Option Persona)
    (cache : PersonaCache) : PersonaCache :=
  if subcommand = "create" then invalidatePersonaCache cache none
  else if subcommand = "list" then cache
  else if subcommand = "delete" then invalidatePersonaCache cache none
  else if subcommand = "rename" then invalidatePersonaCache cache none
  else if subcommand = "edit" then
    match persona with
    | none => cache
    | some p =>
      match p.channel_id with
      | some cid => if cid = "" then invalidatePersonaCache cache none
                    else invalidatePersonaCache cache (some cid)
      | none => invalidatePersonaCache cache none
  else cache

/-- The effect of `syncPersonaChannels` (`utils/channel.ts`, run from the
`ClientReady` startup sync) on the persona cache. For each persona with a
truthy `channel_id` whose channel is missing from the guild cache
(`guildHasChannel` models `guild.channels.cache.get`), the channel is
recreated and the persona updated (`recreate` models that combined
awaited step): on success `invalidatePersonaCache()` clears the whole
cache; on failure only the error is recorded. Personas with no (or an
empty, falsy) `channel_id`, or whose channel still exists, leave the
cache alone. -/
def syncPersonaChannelsCacheEffect (guildHasChannel : String → Bool)
    (recreate : Persona → Except String Unit) :
    List Persona → PersonaCache → PersonaCache
  | [], cache => cache
  | p :: rest, cache =>
    match p.channel_id with
    | some cid =>
      if cid = "" then syncPersonaChannelsCacheEffect guildHasChannel recreate rest cache
      else if guildHasChannel cid then
        syncPersonaChannelsCacheEffect guildHasChannel recreate rest cache
      else
        match recreate p with
        | Except.ok _ =>
          syncPersonaChannelsCacheEffect guildHasChannel recreate rest
            (invalidatePersonaCache cache none)
        | Except.error _ =>
          syncPersonaChannelsCacheEffect guildHasChannel recreate rest cache
    | none => syncPersonaChannelsCacheEffect guildHasChannel recreate rest cache

/-- The JSON error body of a non-ok response as `AgentClient.request`
reads it: the optional string `detail` field (`none` = absent). -/
structure ErrorBody where
  detail : Option String
deriving Repr, DecidableEq

/-- JS truthiness of `error.detail || fallback` for a string field: an
absent or empty `detail` falls back. -/
def detailOr (detail : Option String) (fallback : String) : String :=
  match detail with
  | some d => if d = "" then fallback else d
  | none => fallback

/-- The observable pieces of one HTTP response as `AgentClient.request`
reads them: `ok`, `status`, `statusText`, and the outcomes of the
`response.json()` calls on the error path and on the success path
(`Except.error ()` = the promise rejected, i.e. the body was not JSON). -/
structure HttpResponse (T : Type) where
  ok : Bool
  status : Nat
  statusText : String
  errorJson : Except Unit ErrorBody
  bodyJson : Except Unit T

/-- What one `AgentClient.request` call produces: `threw msg` = it threw
an `Error` with message `msg`; `parseFailed` = `response.json()` rejected
on an ok response and that rejection was rethrown unchanged;
`value none` = the `undefined` returned for 204 No Content;
`value (some v)` = the parsed JSON body. -/
inductive RequestResult (T : Type) where
  | threw (message : String)
  | parseFailed
  | value (v : Option T)

namespace AgentClient

/-- `services/agent-client.ts`: the private `request` helper, given the
response the `fetch` resolved to. (A rejected `fetch` itself is rethrown
unchanged by the catch block and is outside this model.) -/
def request {T : Type} (r : HttpResponse T) : RequestResult T :=
  if r.ok = false then
    let errorBody :=
      match r.errorJson with
      | Except.ok e => e
      | Except.error _ => { detail := some r.statusText }
    RequestResult.threw (detailOr errorBody.detail ("HTTP " ++ toString r.status))
  else if r.status = 204 then RequestResult.value none
  else
    match r.bodyJson with
    | Except.ok v => RequestResult.value (some v)
    | Except.error _ => RequestResult.parseFailed

/-- The URL `request` fetches: `` `${this.baseUrl}${path}` ``. -/
def requestUrl (baseUrl path : String) : String :=
  baseUrl ++ path

end AgentClient

/-- Hex digit (uppercase) for a value below 16, as `encodeURIComponent`
emits. -/
def hexDigit (n : Nat) : Char :=
  if n < 10 then Char.ofNat (48 + n) else Char.ofNat (55 + n)

/-- UTF-8 encoding of one character (code point below 0x110000). -/
def utf8Bytes (c : Char) : List Nat :=
  let n := c.toNat
  if n < 0x80 then [n]
  else if n < 0x800 then [0xC0 + n / 64, 0x80 + n % 64]
  else if n < 0x10000 then [0xE0 + n / 4096, 0x80 + n / 64 % 64, 0x80 + n % 64]
  else [0xF0 + n / 262144, 0x80 + n / 4096 % 64, 0x80 + n / 64 % 64, 0x80 + n % 64]

/-- The characters JS `encodeURIComponent` leaves unescaped:
letters, digits, and `- _ . ! ~ * ' ( )`. -/
def isUriUnreserved (c : Char) : Bool :=
  ('A' ≤ c && c ≤ 'Z') || ('a' ≤ c && c ≤ 'z') || ('0' ≤ c && c ≤ '9') ||
  c == '-' || c == '_' || c == '.' || c == '!' || c == '~' || c == '*' ||
  c == Char.ofNat 39 || c == '(' || c == ')'

/-- Percent-encoding of one character, per `encodeURIComponent`. -/
def encodeUriChar (c : Char) : List Char :=
  if isUriUnreserved c then [c]
  else (utf8Bytes c).flatMap (fun b => ['%', hexDigit (b / 16), hexDigit (b % 16)])

/-- Model of JS `encodeURIComponent`. -/
def encodeURIComponent (s : String) : String :=
  ⟨s.data.flatMap encodeUriChar⟩

namespace AgentClient

/-- `services/agent-client.ts`: the method and path `getPersona(name)`
passes to `request`. -/
def getPersonaRequestLine (name : String) : String × String :=
  ("GET", "/api/personas/" ++ encodeURIComponent name)

/-- `services/agent-client.ts`: the method and path `deletePersona(name)`
passes to `request`. -/
def deletePersonaRequestLine (name : String) : String × String :=
  ("DELETE", "/api/personas/" ++ encodeURIComponent name)

end AgentClient

/-- `types/api.ts`: `ErrorInterpretRequest`. -/
structure ErrorInterpretRequest where
  error_message : String
  error_context : Option String
  persona_name : Option String
deriving Repr, DecidableEq

/-- `types/api.ts`: `ErrorInterpretResponse`. -/
structure ErrorInterpretResponse where
  interpretation : String
deriving Repr, DecidableEq

namespace AgentClient

/-- `services/agent-client.ts`: `interpretError`. POSTs the error to
`/api/chat/interpret-error` and returns the interpretation; if that
request throws, returns the fallback built from the original message.
`doRequest` models the `this.request` call on the body it is given. -/
def interpretError
    (doRequest : ErrorInterpretRequest → Except String ErrorInterpretResponse)
    (errorMessage : String) (context : Option String) (personaName : Option String) :
    String :=
  match doRequest { error_message := errorMessage, error_context := context,
                    persona_name := personaName } with
  | Except.ok resp => resp.interpretation
  | Except.error _ => "Something went wrong: " ++ errorMessage

end AgentClient

/-- `types/api.ts`: `ChatRequest` (channel-chat fields included). -/
structure ChatRequest where
  persona_name : String
  user_id : String
  message : String
  session_id : Option String
  user_display_name : Option String
  is_channel_chat : Option Bool
  channel_id : Option String
deriving Repr, DecidableEq

/-- `types/api.ts`: `ChatResponse`. -/
structure ChatResponse where
  response : String
  session_id : String
  persona_name : String
  memories_used : Nat
  memories_saved : Nat
  should_respond : Bool
deriving Repr, DecidableEq

/-- The slice of a Discord message `handlePersonaChannelMessage` reads. -/
structure IncomingMessage where
  authorId : String
  authorIsBot : Bool
  authorUsername : String
  memberDisplayName : Option String
  channelId : String
  content : String
deriving Repr, DecidableEq

/-- What one `handlePersonaChannelMessage` call did: the chat request it
sent to the agent service (if any) and the reply it posted (if any). -/
structure AutoChatOutcome where
  chatRequest : Option ChatRequest
  reply : Option String
deriving Repr, DecidableEq

/-- `message.member?.displayName || message.author.username` (JS
truthiness: a missing member or empty display name falls back). -/
def displayNameOf (m : IncomingMessage) : String :=
  match m.memberDisplayName with
  | some d => if d = "" then m.authorUsername else d
  | none => m.authorUsername

/-- The chat request body `handlePersonaChannelMessage` builds for a
persona channel message. -/
def autoChatRequestOf (persona : Persona) (m : IncomingMessage) : ChatRequest :=
  { persona_name := persona.name, user_id := m.authorId,
    message := m.content, session_id := none,
    user_display_name := some (displayNameOf m),
    is_channel_chat := some true, channel_id := some m.channelId }

/-- `index.ts`: `handlePersonaChannelMessage`. `personaLookup` models
`await getPersonaForChannel(message.channelId)`, `chatCall` the
`agentClient.chat` call, `interpretCall` the `agentClient.interpretError`
call of the catch block. -/
def handlePersonaChannelMessage
    (personaLookup : String → Option Persona)
    (chatCall : ChatRequest → Except String ChatResponse)
    (interpretCall : String → Option String → Option String → Except String String)
    (m : IncomingMessage) : AutoChatOutcome :=
  if m.authorIsBot then { chatRequest := none, reply := none }
  else
    match personaLookup m.channelId with
    | none => { chatRequest := none, reply := none }
    | some persona =>
      if startsWithSlash m.content then { chatRequest := none, reply := none }
      else if jsTrim m.content = "" then { chatRequest := none, reply := none }
      else
        let req : ChatRequest := autoChatRequestOf persona m
        match chatCall req with
        | Except.ok resp =>
          if resp.should_respond && !(jsTrim resp.response == "") then
            { chatRequest := some req, reply := some resp.response }
          else { chatRequest := some req, reply := none }
        | Except.error errMsg =>
          match interpretCall errMsg (some "Failed to process your message")
              (some persona.name) with
          | Except.ok interp => { chatRequest := some req, reply := some interp }
          | Except.error _ =>
            { chatRequest := some req,
              reply := some "I'm having trouble responding right now. Please try again later." }

/-- `commands/chat.ts`: the `activeSessions` JS `Map<string, string>`
(session id per `getSessionKey` key), `Map.get`. -/
def activeSessionsGet (m : List (String × String)) (k : String) : Option String :=
  match m with
  | [] => none
  | (k2, v) :: rest => if k2 = k then some v else activeSessionsGet rest k

/-- `commands/chat.ts`: `activeSessions` `Map.set` (replace or append). -/
def activeSessionsSet (m : List (String × String)) (k v : String) :
    List (String × String) :=
  match m with
  | [] => [(k, v)]
  | (k2, v2) :: rest =>
    if k2 = k then (k2, v) :: rest else (k2, v2) :: activeSessionsSet rest k v

/-- `handleChat` session bookkeeping: after a successful
`agentClient.chat`, the returned session id is stored under
`getSessionKey(userId, personaName)`. -/
def handleChatStoreSession (sessions : List (String × String))
    (userId personaName sessionId : String) : List (String × String) :=
  activeSessionsSet sessions (getSessionKey userId personaName) sessionId

/-- Absence of adjacent hyphens, stated on consecutive characters (the
shape produced by collapsing non-slug runs to single hyphens). -/
def notDoubleHyphen (a b : Char) : Prop :=
  ¬(a = '-' ∧ b = '-')

/-- Boolean check that a character list has no two adjacent hyphens. -/
def noDoubleHyphen : List Char → Bool
  | [] => true
  | [_] => true
  | a :: b :: rest => !(a == '-' && b == '-') && noDoubleHyphen (b :: rest)

/-- Sample persona used by concrete witnesses. -/
def samplePersona : Persona :=
  { name := "Wise Wizard", personality := "wise and kind",
    appearance := none, channel_id := some "chan1",
    created_at := "2025-01-01", updated_at := "2025-01-01" }

/-- Sample unexpired cache entry (expires at t = 1000 ms). -/
def sampleEntry : CacheEntry :=
  { persona := some samplePersona, expires := 1000 }

/-- Sample cache holding `sampleEntry` under channel id `chan1`. -/
def sampleCache : PersonaCache :=
  [("chan1", sampleEntry)]

/-- Sample persona lookup: `chan1` is `samplePersona`'s channel. -/
def sampleLookup : String → Option Persona :=
  fun cid => if cid = "chan1" then some samplePersona else none

/-- Sample interpret-error model that always succeeds. -/
def sampleInterpretOk : String → Option String → Option String → Except String String :=
  fun _ _ _ => Except.ok "A friendly explanation."

/-- Sample interpret-error model that always throws. -/
def sampleInterpretFail : String → Option String → Option String → Except String String :=
  fun _ _ _ => Except.error "interpret endpoint down"

/-- Sample `/remember` interaction in `samplePersona`'s channel. -/
def sampleRememberInteraction : Interaction :=
  { commandName := "remember", subcommand := none,
    channel := InteractionChannel.text { id := "chan1", name := "wise-wizard" } }

/-- Sample `/memories` interaction in an arbitrary text channel. -/
def sampleMemoriesInteraction : Interaction :=
  { commandName := "memories", subcommand := none,
    channel := InteractionChannel.text { id := "chan9", name := "random" } }

/-- Sample `/persona list` interaction in the admin channel `#General`. -/
def samplePersonaListInteraction : Interaction :=
  { commandName := "persona", subcommand := some "list",
    channel := InteractionChannel.text { id := "chan0", name := "General" } }

/-- Sample `/imagine` interaction in `samplePersona`'s channel. -/
def sampleImagineInteraction : Interaction :=
  { commandName := "imagine", subcommand := none,
    channel := InteractionChannel.text { id := "chan1", name := "wise-wizard" } }

/-- Sample non-bot message in `samplePersona`'s channel. -/
def sampleMessage : IncomingMessage :=
  { authorId := "user42", authorIsBot := false, authorUsername := "merlin",
    memberDisplayName := some "Merlin", channelId := "chan1",
    content := "hello there" }

/-- Sample chat response the agent service decided to answer. -/
def sampleChatResponse : ChatResponse :=
  { response := "Greetings, traveller.", session_id := "sess1",
    persona_name := "Wise Wizard", memories_used := 0, memories_saved := 0,
    should_respond := true }

/-! Helper lemmas about characters and the slug pipeline. -/

theorem charLe_iff_toNat (a b : Char) : a ≤ b ↔ a.toNat ≤ b.toNat := Iff.rfl

theorem slugChar_toNat (c : Char) (h : isSlugChar c = true ∨ c = '-') :
    (97 ≤ c.toNat ∧ c.toNat ≤ 122) ∨ (48 ≤ c.toNat ∧ c.toNat ≤ 57) ∨ c.toNat = 45 := by
  rcases h with h | rfl
  · simp only [isSlugChar, Bool.or_eq_true, Bool.and_eq_true, decide_eq_true_eq,
      charLe_iff_toNat, show Char.toNat 'a' = 97 from rfl, show Char.toNat 'z' = 122 from rfl,
      show Char.toNat '0' = 48 from rfl, show Char.toNat '9' = 57 from rfl] at h
    rcases h with ⟨h1, h2⟩ | ⟨h1, h2⟩
    · exact Or.inl ⟨h1, h2⟩
    · exact Or.inr (Or.inl ⟨h1, h2⟩)
  · exact Or.inr (Or.inr rfl)

theorem jsLowerChar_fixed (c : Char) (h : isSlugChar c = true ∨ c = '-') :
    jsLowerChar c = c := by
  have hn := slugChar_toNat c h
  have hb : ('A' ≤ c && c ≤ 'Z') = false := by
    simp only [Bool.and_eq_false_iff, decide_eq_false_iff_not, charLe_iff_toNat,
      show Char.toNat 'A' = 65 from rfl, show Char.toNat 'Z' = 90 from rfl]
    omega
  unfold jsLowerChar
  rw [hb]
  simp

theorem jsIsWhitespace_slug (c : Char) (h : isSlugChar c = true ∨ c = '-') :
    jsIsWhitespace c = false := by
  have hn := slugChar_toNat c h
  have key : ∀ n : Nat, c.toNat ≠ n → (c.toNat == n) = false := by
    intro n hne
    simpa using hne
  have keyc : ∀ d : Char, c.toNat ≠ d.toNat → (c == d) = false := by
    intro d hne
    rw [beq_eq_false_iff_ne]
    intro he
    exact hne (by rw [he])
  rw [jsIsWhitespace,
    keyc ' ' (by rw [show Char.toNat ' ' = 32 from rfl]; omega),
    keyc '\t' (by rw [show Char.toNat '\t' = 9 from rfl]; omega),
    keyc '\n' (by rw [show Char.toNat '\n' = 10 from rfl]; omega),
    keyc '\r' (by rw [show Char.toNat '\r' = 13 from rfl]; omega),
    key 11 (by omega), key 12 (by omega), key 0xA0 (by omega),
    key 0xFEFF (by omega), key 0x2028 (by omega), key 0x2029 (by omega)]
  rfl

theorem dropWhile_eq_self_of_all {α : Type} (p : α → Bool) (l : List α)
    (h : ∀ c ∈ l, p c = false) : l.dropWhile p = l := by
  cases l with
  | nil => rfl
  | cons a l =>
    rw [List.dropWhile_cons, h a (List.mem_cons_self a l)]
    simp

theorem head?_dropWhile {α : Type} (p : α → Bool) (l : List α) (c : α)
    (h : (l.dropWhile p).head? = some c) : p c = false := by
  induction l with
  | nil => simp at h
  | cons a l ih =>
    rw [List.dropWhile_cons] at h
    by_cases ha : p a = true
    · rw [if_pos ha] at h
      exact ih h
    · rw [if_neg ha] at h
      simp at h
      rw [← h]
      exact Bool.eq_false_iff.mpr ha

theorem getLast?_dropWhile {α : Type} (p : α → Bool) (l : List α) :
    l.dropWhile p = [] ∨ (l.dropWhile p).getLast? = l.getLast? := by
  induction l with
  | nil => exact Or.inl rfl
  | cons a l ih =>
    rw [List.dropWhile_cons]
    by_cases ha : p a = true
    · rw [if_pos ha]
      rcases ih with h1 | h1
      · exact Or.inl h1
      · cases hl : List.dropWhile p l with
        | nil => exact Or.inl rfl
        | cons b m =>
          right
          rw [← hl, h1]
          cases l with
          | nil => simp at hl
          | cons x xs => rw [List.getLast?_cons_cons]
    · rw [if_neg ha]
      exact Or.inr rfl

theorem chain'_dropWhile {α : Type} (R : α → α → Prop) (p : α → Bool) (l : List α)
    (h : List.Chain' R l) : List.Chain' R (l.dropWhile p) := by
  induction l with
  | nil => exact List.chain'_nil
  | cons a l ih =>
    rw [List.dropWhile_cons]
    by_cases ha : p a = true
    · rw [if_pos ha]
      exact ih (List.Chain'.tail h)
    · rw [if_neg ha]
      exact h

theorem chain'_ndh_reverse (l : List Char) :
    List.Chain' notDoubleHyphen l.reverse ↔ List.Chain' notDoubleHyphen l := by
  rw [List.chain'_reverse]
  constructor
  · intro h
    refine List.Chain'.imp ?_ h
    intro a b hab hcon
    exact hab ⟨hcon.2, hcon.1⟩
  · intro h
    refine List.Chain'.imp ?_ h
    intro a b hab hcon
    exact hab ⟨hcon.2, hcon.1⟩

theorem mem_collapseNonSlug (b : Bool) (l : List Char) (c : Char)
    (h : c ∈ collapseNonSlug b l) : isSlugChar c = true ∨ c = '-' := by
  induction l generalizing b with
  | nil => simp [collapseNonSlug] at h
  | cons a l ih =>
    rw [collapseNonSlug] at h
    by_cases ha : isSlugChar a = true
    · rw [if_pos ha] at h
      rcases List.mem_cons.mp h with h1 | h1
      · left
        rw [h1]
        exact ha
      · exact ih false h1
    · rw [if_neg ha] at h
      by_cases hb : b = true
      · rw [hb, if_pos rfl] at h
        exact ih true h
      · rw [if_neg hb] at h
        rcases List.mem_cons.mp h with h1 | h1
        · exact Or.inr h1
        · exact ih true h1

theorem head?_collapseNonSlug_true (l : List Char) (c : Char)
    (h : (collapseNonSlug true l).head? = some c) : isSlugChar c = true := by
  induction l with
  | nil => simp [collapseNonSlug] at h
  | cons a l ih =>
    rw [collapseNonSlug] at h
    by_cases ha : isSlugChar a = true
    · rw [if_pos ha] at h
      simp at h
      rw [← h]
      exact ha
    · rw [if_neg ha, if_pos rfl] at h
      exact ih h

theorem slugChar_ne_hyphen (c : Char) (h : isSlugChar c = true) : ¬ c = '-' := by
  intro he
  rw [he] at h
  simp [isSlugChar] at h

theorem chain'_collapseNonSlug (b : Bool) (l : List Char) :
    List.Chain' notDoubleHyphen (collapseNonSlug b l) := by
  induction l generalizing b with
  | nil => exact List.chain'_nil
  | cons a l ih =>
    rw [collapseNonSlug]
    by_cases ha : isSlugChar a = true
    · rw [if_pos ha]
      rw [List.chain'_cons']
      refine ⟨?_, ih false⟩
      intro y _ hcon
      exact slugChar_ne_hyphen a ha hcon.1
    · rw [if_neg ha]
      by_cases hb : b = true
      · rw [hb, if_pos rfl]
        exact ih true
      · rw [if_neg hb]
        rw [List.chain'_cons']
        refine ⟨?_, ih true⟩
        intro y hy hcon
        exact slugChar_ne_hyphen y (head?_collapseNonSlug_true l y hy) hcon.2

theorem mem_stripHyphens (l : List Char) (c : Char) (h : c ∈ stripHyphens l) : c ∈ l := by
  rw [stripHyphens] at h
  rw [List.mem_reverse] at h
  have h2 := (List.dropWhile_sublist (l := (l.dropWhile (fun c => c == '-')).reverse)
    (fun c => c == '-')).mem h
  rw [List.mem_reverse] at h2
  exact (List.dropWhile_sublist (fun c => c == '-')).mem h2

theorem chain'_stripHyphens (l : List Char) (h : List.Chain' notDoubleHyphen l) :
    List.Chain' notDoubleHyphen (stripHyphens l) := by
  rw [stripHyphens]
  rw [chain'_ndh_reverse]
  apply chain'_dropWhile
  rw [chain'_ndh_reverse]
  apply chain'_dropWhile
  exact h

theorem head?_stripHyphens (l : List Char) (c : Char)
    (h : (stripHyphens l).head? = some c) : (c == '-') = false := by
  rw [stripHyphens, List.head?_reverse] at h
  rcases getLast?_dropWhile (fun c => c == '-') (l.dropWhile (fun c => c == '-')).reverse
      with h1 | h1
  · rw [h1] at h
    simp at h
  · rw [h1, List.getLast?_reverse] at h
    exact head?_dropWhile _ l c h

theorem getLast?_stripHyphens (l : List Char) (c : Char)
    (h : (stripHyphens l).getLast? = some c) : (c == '-') = false := by
  rw [stripHyphens, List.getLast?_reverse] at h
  exact head?_dropWhile _ _ c h

theorem trimList_eq_self (l : List Char)
    (h : ∀ c ∈ l, isSlugChar c = true ∨ c = '-') : trimList l = l := by
  rw [trimList]
  rw [dropWhile_eq_self_of_all jsIsWhitespace l (fun c hc => jsIsWhitespace_slug c (h c hc))]
  rw [dropWhile_eq_self_of_all jsIsWhitespace l.reverse
    (fun c hc => jsIsWhitespace_slug c (h c (List.mem_reverse.mp hc)))]
  exact List.reverse_reverse l

theorem map_jsLowerChar_eq_self (l : List Char)
    (h : ∀ c ∈ l, isSlugChar c = true ∨ c = '-') : l.map jsLowerChar = l := by
  induction l with
  | nil => rfl
  | cons a l ih =>
    rw [List.map_cons]
    rw [jsLowerChar_fixed a (h a (List.mem_cons_self a l))]
    rw [ih (fun c hc => h c (List.mem_cons_of_mem a hc))]

theorem collapseNonSlug_eq_self (l : List Char)
    (hmem : ∀ c ∈ l, isSlugChar c = true ∨ c = '-')
    (hch : List.Chain' notDoubleHyphen l) :
    collapseNonSlug false l = l ∧
      (l.head? ≠ some '-' → collapseNonSlug true l = l) := by
  induction l with
  | nil => exact ⟨rfl, fun _ => rfl⟩
  | cons a l ih =>
    have hR := (List.chain'_cons'.mp hch).1
    have hch2 := (List.chain'_cons'.mp hch).2
    have hmem2 : ∀ c ∈ l, isSlugChar c = true ∨ c = '-' :=
      fun c hc => hmem c (List.mem_cons_of_mem a hc)
    have ih2 := ih hmem2 hch2
    rcases hmem a (List.mem_cons_self a l) with ha | ha
    · constructor
      · rw [collapseNonSlug, if_pos ha, ih2.1]
      · intro _
        rw [collapseNonSlug, if_pos ha, ih2.1]
    · have hna : ¬ isSlugChar a = true := by
        rw [ha]
        simp [isSlugChar]
      have hltail : l.head? ≠ some '-' := by
        intro hhd
        cases l with
        | nil => simp at hhd
        | cons x xs =>
          simp at hhd
          exact hR x rfl ⟨ha, hhd⟩
      constructor
      · rw [collapseNonSlug, if_neg hna, if_neg (by simp)]
        rw [ih2.2 hltail, ha]
      · intro hhd
        exact absurd (by rw [ha]; rfl) hhd

theorem stripHyphens_eq_self (l : List Char)
    (hh : l.head? ≠ some '-') (hl : l.getLast? ≠ some '-') : stripHyphens l = l := by
  have hdw : ∀ (m : List Char), m.head? ≠ some '-' →
      m.dropWhile (fun c => c == '-') = m := by
    intro m hm
    cases m with
    | nil => rfl
    | cons x xs =>
      rw [List.dropWhile_cons]
      have : ¬ x = '-' := by
        intro he
        exact hm (by rw [he]; rfl)
      rw [if_neg (by simpa using this)]
  rw [stripHyphens]
  rw [hdw l hh]
  rw [hdw l.reverse (by rw [List.head?_reverse]; exact hl)]
  exact List.reverse_reverse l

theorem noDoubleHyphen_iff : ∀ l : List Char,
    noDoubleHyphen l = true ↔ List.Chain' notDoubleHyphen l
  | [] => by
    constructor
    · intro _; exact List.chain'_nil
    · intro _; rfl
  | [a] => by
    constructor
    · intro _; exact List.chain'_singleton a
    · intro _; rfl
  | a :: b :: l => by
    have ih := noDoubleHyphen_iff (b :: l)
    rw [List.chain'_cons]
    show (!(a == '-' && b == '-') && noDoubleHyphen (b :: l)) = true ↔ _
    rw [Bool.and_eq_true]
    constructor
    · intro ⟨h1, h2⟩
      refine ⟨?_, ih.mp h2⟩
      intro ⟨ha, hb⟩
      rw [ha, hb] at h1
      simp at h1
    · intro ⟨h1, h2⟩
      refine ⟨?_, ih.mpr h2⟩
      by_cases ha : a = '-'
      · by_cases hb : b = '-'
        · exact absurd ⟨ha, hb⟩ h1
        · simp [hb]
      · simp [ha]

theorem slug_data (t : String) : (slugifyPersonaName t).data =
    stripHyphens (collapseNonSlug false (trimList (t.data.map jsLowerChar))) := rfl

/-- Claim C10: `slugifyPersonaName` is idempotent, and its output is
either empty or made of lowercase ASCII letters, digits and single
interior hyphens — no two adjacent hyphens and no leading or trailing
hyphen. -/
theorem C10_slugifyPersonaName_idempotent_shape (s : String) :
    slugifyPersonaName (slugifyPersonaName s) = slugifyPersonaName s ∧
    (slugifyPersonaName s).data.all (fun c => isSlugChar c || c == '-') = true ∧
    noDoubleHyphen (slugifyPersonaName s).data = true ∧
    ((slugifyPersonaName s).data.head? == some '-') = false ∧
    ((slugifyPersonaName s).data.getLast? == some '-') = false := by
  have ht := slug_data s
  have hmem : ∀ c ∈ stripHyphens (collapseNonSlug false (trimList (s.data.map jsLowerChar))),
      isSlugChar c = true ∨ c = '-' := by
    intro c hc
    exact mem_collapseNonSlug false _ c (mem_stripHyphens _ c hc)
  have hch : List.Chain' notDoubleHyphen
      (stripHyphens (collapseNonSlug false (trimList (s.data.map jsLowerChar)))) :=
    chain'_stripHyphens _ (chain'_collapseNonSlug false _)
  have hh : (stripHyphens (collapseNonSlug false (trimList (s.data.map jsLowerChar)))).head? ≠
      some '-' := by
    intro h
    have := head?_stripHyphens _ '-' h
    simp at this
  have hl : (stripHyphens (collapseNonSlug false
      (trimList (s.data.map jsLowerChar)))).getLast? ≠ some '-' := by
    intro h
    have := getLast?_stripHyphens _ '-' h
    simp at this
  refine ⟨?_, ?_, ?_, ?_, ?_⟩
  · apply String.ext
    rw [slug_data (slugifyPersonaName s), ht]
    rw [map_jsLowerChar_eq_self _ hmem, trimList_eq_self _ hmem,
      (collapseNonSlug_eq_self _ hmem hch).1]
    exact stripHyphens_eq_self _ hh hl
  · rw [List.all_eq_true]
    intro c hc
    rw [ht] at hc
    rcases hmem c hc with h | h
    · simp [h]
    · simp [h]
  · rw [ht]
    exact (noDoubleHyphen_iff _).mpr hch
  · rw [ht, beq_eq_false_iff_ne]
    exact hh
  · rw [ht, beq_eq_false_iff_ne]
    exact hl

/-- Claim C1: for every channel id, `getPersonaForChannel` returns the
cached persona (possibly null) whenever an unexpired cache entry exists;
on a miss or an expired entry it fetches the persona list, selects the
persona whose `channel_id` equals the channel id (null if none), stores
that result with expiry `now + 30000` ms, and returns it. -/
theorem C1_getPersonaForChannel_cache (cache : PersonaCache) (now : Nat)
    (fetchResult : Except String (List Persona)) (channelId : String) :
    (∀ e, cacheGet cache channelId = some e → e.expires > now →
      getPersonaForChannel cache now fetchResult channelId = (e.persona, cache)) ∧
    (∀ personas, fetchResult = Except.ok personas →
      (cacheGet cache channelId = none ∨
        ∃ e, cacheGet cache channelId = some e ∧ ¬ e.expires > now) →
      getPersonaForChannel cache now fetchResult channelId =
        (findPersonaByChannel personas channelId,
         cacheSet cache channelId
           { persona := findPersonaByChannel personas channelId,
             expires := now + 30000 })) := by
  constructor
  · intro e he hexp
    simp only [getPersonaForChannel, he, if_pos hexp]
  · intro personas hf hmiss
    rcases hmiss with h1 | ⟨e, he, hexp⟩
    · simp only [getPersonaForChannel, h1, getPersonaFetchPath, hf, CACHE_TTL_MS]
    · simp only [getPersonaForChannel, he, if_neg hexp, getPersonaFetchPath, hf,
        CACHE_TTL_MS]

/-- Witness for C1 at concrete inputs: an unexpired hit at t = 500 ms is
served from the cache, and a miss with a successful fetch caches the
lookup with expiry 500 + 30000. -/
theorem C1_getPersonaForChannel_cache_witness :
    getPersonaForChannel sampleCache 500 (Except.error "boom") "chan1" =
      (some samplePersona, sampleCache) ∧
    getPersonaForChannel [] 500 (Except.ok [samplePersona]) "chan1" =
      (findPersonaByChannel [samplePersona] "chan1",
       cacheSet [] "chan1"
         { persona := findPersonaByChannel [samplePersona] "chan1",
           expires := 500 + 30000 }) := by
  constructor
  · exact (C1_getPersonaForChannel_cache sampleCache 500 (Except.error "boom") "chan1").1
      sampleEntry rfl (by decide)
  · exact (C1_getPersonaForChannel_cache [] 500 (Except.ok [samplePersona]) "chan1").2
      [samplePersona] rfl (Or.inl rfl)

/-- Claim C9: when the persona-list fetch fails on a cache miss or an
expired entry, `getPersonaForChannel` returns null and leaves the cache
exactly as it was (no negative caching), so every cached entry — in
particular those of other channels — is unaffected. -/
theorem C9_getPersonaForChannel_fetch_failure (cache : PersonaCache) (now : Nat)
    (err : String) (channelId : String)
    (hmiss : cacheGet cache channelId = none ∨
      ∃ e, cacheGet cache channelId = some e ∧ ¬ e.expires > now) :
    getPersonaForChannel cache now (Except.error err) channelId = (none, cache) ∧
    ∀ k, cacheGet (getPersonaForChannel cache now (Except.error err) channelId).2 k =
      cacheGet cache k := by
  have h : getPersonaForChannel cache now (Except.error err) channelId = (none, cache) := by
    rcases hmiss with h1 | ⟨e, he, hexp⟩
    · simp only [getPersonaForChannel, h1, getPersonaFetchPath]
    · simp only [getPersonaForChannel, he, if_neg hexp, getPersonaFetchPath]
  exact ⟨h, fun k => by rw [h]⟩

/-- Witness for C9 at a concrete input: a failed fetch on an empty cache
returns null and the cache stays empty. -/
theorem C9_getPersonaForChannel_fetch_failure_witness :
    getPersonaForChannel [] 999 (Except.error "service down") "chanX" = (none, []) ∧
    ∀ k, cacheGet (getPersonaForChannel [] 999 (Except.error "service down") "chanX").2 k =
      cacheGet ([] : PersonaCache) k :=
  C9_getPersonaForChannel_fetch_failure [] 999 "service down" "chanX" (Or.inl rfl)

/-- Claim C7: `interpretError` is total — it never throws; it returns the
service's interpretation when the interpret-error request succeeds, and
otherwise the fallback string built from the original error message. -/
theorem C7_interpretError_total
    (doRequest : ErrorInterpretRequest → Except String ErrorInterpretResponse)
    (errorMessage : String) (context personaName : Option String) :
    (∃ resp,
        doRequest { error_message := errorMessage, error_context := context,
                    persona_name := personaName } = Except.ok resp ∧
        AgentClient.interpretError doRequest errorMessage context personaName =
          resp.interpretation) ∨
    (∃ e,
        doRequest { error_message := errorMessage, error_context := context,
                    persona_name := personaName } = Except.error e ∧
        AgentClient.interpretError doRequest errorMessage context personaName =
          "Something went wrong: " ++ errorMessage) := by
  rcases hreq : doRequest ⟨errorMessage, context, personaName⟩ with e | resp
  · right
    exact ⟨e, rfl, by simp only [AgentClient.interpretError, hreq]⟩
  · left
    exact ⟨resp, rfl, by simp only [AgentClient.interpretError, hreq]⟩

/-- Claim C5 counterexample: an unexpired cache entry stops being served
for reasons other than TTL expiry — the explicit cache clears performed
by `handlePersonaCommand` after `/persona create` and by
`syncPersonaChannels` after recreating a missing persona channel. At
t = 500 ms the entry for `chan1` (expiry 1000 ms) is served; after either
operation's `invalidatePersonaCache()` the same lookup at the same time
no longer finds it. -/
theorem C5_invalidation_counterexample :
    cacheGet sampleCache "chan1" = some sampleEntry ∧
    sampleEntry.expires > 500 ∧
    getPersonaForChannel sampleCache 500 (Except.error "svc") "chan1" =
      (some samplePersona, sampleCache) ∧
    handlePersonaCommandCacheEffect "create" none sampleCache = [] ∧
    syncPersonaChannelsCacheEffect (fun _ => false) (fun _ => Except.ok ())
      [samplePersona] sampleCache = [] ∧
    getPersonaForChannel (handlePersonaCommandCacheEffect "create" none sampleCache)
      500 (Except.error "svc") "chan1" = (none, []) := by
  refine ⟨by decide, by decide, by decide, by decide, by decide, by decide⟩

theorem cacheGet_cacheSet_ne (cache : PersonaCache) (ch k : String) (v : CacheEntry)
    (h : k ≠ ch) : cacheGet (cacheSet cache ch v) k = cacheGet cache k := by
  induction cache with
  | nil =>
    simp only [cacheSet, cacheGet]
    rw [if_neg (fun he => h (he.symm))]
  | cons p rest ih =>
    obtain ⟨k2, v2⟩ := p
    simp only [cacheSet]
    by_cases h2 : k2 = ch
    · rw [if_pos h2]
      simp only [cacheGet]
      have hk2 : ¬ k2 = k := fun he => h (by rw [← he, h2])
      rw [if_neg hk2, if_neg hk2]
    · rw [if_neg h2]
      simp only [cacheGet]
      by_cases h3 : k2 = k
      · rw [if_pos h3, if_pos h3]
      · rw [if_neg h3, if_neg h3]
        exact ih

theorem syncPersonaChannelsCacheEffect_cases (guildHasChannel : String → Bool)
    (recreate : Persona → Except String Unit) (personas : List Persona)
    (cache : PersonaCache) :
    syncPersonaChannelsCacheEffect guildHasChannel recreate personas cache = cache ∨
    syncPersonaChannelsCacheEffect guildHasChannel recreate personas cache = [] := by
  induction personas generalizing cache with
  | nil => exact Or.inl rfl
  | cons p rest ih =>
    rcases hcid : p.channel_id with _ | cid
    · simp only [syncPersonaChannelsCacheEffect, hcid]
      exact ih cache
    · simp only [syncPersonaChannelsCacheEffect, hcid]
      by_cases hempty : cid = ""
      · rw [if_pos hempty]
        exact ih cache
      · rw [if_neg hempty]
        by_cases hg : guildHasChannel cid = true
        · rw [if_pos hg]
          exact ih cache
        · rw [if_neg hg]
          rcases hrec : recreate p with e | u
          · exact ih cache
          · rcases ih ([] : PersonaCache) with h | h
            · exact Or.inr h
            · exact Or.inr h

/-- Claim C5 (amended): the persona cache loses entries in exactly two
ways — TTL expiry, and the explicit `invalidatePersonaCache` calls issued
by `handlePersonaCommand` after create/delete/rename/edit and by
`syncPersonaChannels` when the startup sync recreates a missing persona
channel. Every such operation's cache effect is the identity, a full
clear (`invalidatePersonaCache` with no argument), or a single-key
invalidation; and a `getPersonaForChannel` lookup never disturbs the
entry of any other channel. -/
theorem C5_amended_cache_removal (subcommand : String) (persona : Option Persona)
    (cache : PersonaCache) :
    (handlePersonaCommandCacheEffect subcommand persona cache = cache ∨
     handlePersonaCommandCacheEffect subcommand persona cache =
       invalidatePersonaCache cache none ∨
     ∃ cid, handlePersonaCommandCacheEffect subcommand persona cache =
       invalidatePersonaCache cache (some cid)) ∧
    (∀ (guildHasChannel : String → Bool) (recreate : Persona → Except String Unit)
        (personas : List Persona),
      syncPersonaChannelsCacheEffect guildHasChannel recreate personas cache = cache ∨
      syncPersonaChannelsCacheEffect guildHasChannel recreate personas cache =
        invalidatePersonaCache cache none) ∧
    (∀ (now : Nat) (fetchResult : Except String (List Persona)) (channelId k : String),
      k ≠ channelId →
      cacheGet (getPersonaForChannel cache now fetchResult channelId).2 k =
        cacheGet cache k) := by
  refine ⟨?_, ?_, ?_⟩
  · unfold handlePersonaCommandCacheEffect
    split_ifs with h1 h2 h3 h4 h5
    · exact Or.inr (Or.inl rfl)
    · exact Or.inl rfl
    · exact Or.inr (Or.inl rfl)
    · exact Or.inr (Or.inl rfl)
    · rcases hp : persona with _ | p
      · exact Or.inl rfl
      · rcases hcid : p.channel_id with _ | cid
        · right
          left
          simp only [hcid]
        · by_cases hb : cid = ""
          · right
            left
            simp only [hcid, if_pos hb]
          · right
            right
            refine ⟨cid, ?_⟩
            simp only [hcid, if_neg hb]
    · exact Or.inl rfl
  · intro guildHasChannel recreate personas
    rcases syncPersonaChannelsCacheEffect_cases guildHasChannel recreate personas cache
        with h | h
    · exact Or.inl h
    · exact Or.inr h
  · intro now fetchResult channelId k hk
    rcases hget : cacheGet cache channelId with _ | e
    · rcases fetchResult with err | ps
      · simp only [getPersonaForChannel, hget, getPersonaFetchPath]
      · simp only [getPersonaForChannel, hget, getPersonaFetchPath]
        exact cacheGet_cacheSet_ne cache channelId k _ hk
    · by_cases hexp : e.expires > now
      · simp only [getPersonaForChannel, hget, if_pos hexp]
      · rcases fetchResult with err | ps
        · simp only [getPersonaForChannel, hget, if_neg hexp, getPersonaFetchPath]
        · simp only [getPersonaForChannel, hget, if_neg hexp, getPersonaFetchPath]
          exact cacheGet_cacheSet_ne cache channelId k _ hk

/-- Witness for the amended C5 at concrete inputs: a startup sync over
one persona whose channel is missing is one of the two allowed cache
effects, and a lookup for `chan2` (which caches a result for `chan2`)
leaves `chan1`'s entry untouched. -/
theorem C5_amended_cache_removal_witness :
    (syncPersonaChannelsCacheEffect (fun _ => false) (fun _ => Except.ok ())
        [samplePersona] sampleCache = sampleCache ∨
      syncPersonaChannelsCacheEffect (fun _ => false) (fun _ => Except.ok ())
        [samplePersona] sampleCache = invalidatePersonaCache sampleCache none) ∧
    cacheGet (getPersonaForChannel sampleCache 500 (Except.ok []) "chan2").2 "chan1" =
      cacheGet sampleCache "chan1" :=
  ⟨(C5_amended_cache_removal "list" none sampleCache).2.1 (fun _ => false)
      (fun _ => Except.ok ()) [samplePersona],
   (C5_amended_cache_removal "list" none sampleCache).2.2 500 (Except.ok []) "chan2"
      "chan1" (by decide)⟩

/-- Claim C6 counterexample: on a non-ok response whose body is not JSON,
`request` throws the `statusText`, not `"HTTP <status>"` as the claim
states — the catch substitutes `{ detail: response.statusText }` before
the `error.detail || ...` fallback is taken. -/
theorem C6_request_statusText_counterexample :
    @AgentClient.request Unit
      { ok := false, status := 500, statusText := "Internal Server Error",
        errorJson := Except.error (), bodyJson := Except.error () } =
      RequestResult.threw "Internal Server Error" ∧
    ("Internal Server Error" == "HTTP " ++ toString 500) = false := by
  constructor
  · rfl
  · decide

/-- Claim C6 (amended): `request` throws exactly on a non-ok response,
with message: the body's `detail` field when the body parses and `detail`
is a non-empty string; `"HTTP <status>"` when the body parses without a
(non-empty) `detail`; the `statusText` when the body does not parse (or
`"HTTP <status>"` if the `statusText` is itself empty). A 204 response
yields `undefined`, any other ok response yields the parsed JSON body;
`getPersona`/`deletePersona` issue GET/DELETE to
`/api/personas/<encodeURIComponent(name)>`. -/
theorem C6_request_behaviour {T : Type} (r : HttpResponse T) :
    (r.ok = false → ∀ body d, r.errorJson = Except.ok body → body.detail = some d →
      d ≠ "" → AgentClient.request r = RequestResult.threw d) ∧
    (r.ok = false → ∀ body, r.errorJson = Except.ok body →
      (body.detail = none ∨ body.detail = some "") →
      AgentClient.request r = RequestResult.threw ("HTTP " ++ toString r.status)) ∧
    (r.ok = false → r.errorJson = Except.error () → r.statusText ≠ "" →
      AgentClient.request r = RequestResult.threw r.statusText) ∧
    (r.ok = false → r.errorJson = Except.error () → r.statusText = "" →
      AgentClient.request r = RequestResult.threw ("HTTP " ++ toString r.status)) ∧
    (r.ok = true → r.status = 204 → AgentClient.request r = RequestResult.value none) ∧
    (r.ok = true → r.status ≠ 204 → ∀ v, r.bodyJson = Except.ok v →
      AgentClient.request r = RequestResult.value (some v)) ∧
    (∀ name, AgentClient.getPersonaRequestLine name =
      ("GET", "/api/personas/" ++ encodeURIComponent name)) ∧
    (∀ name, AgentClient.deletePersonaRequestLine name =
      ("DELETE", "/api/personas/" ++ encodeURIComponent name)) := by
  refine ⟨?_, ?_, ?_, ?_, ?_, ?_, fun _ => rfl, fun _ => rfl⟩
  · intro hok body d herr hd hne
    simp only [AgentClient.request, hok, if_true, herr, detailOr, hd, if_neg hne]
  · intro hok body herr hd
    rcases hd with hd | hd
    · simp only [AgentClient.request, hok, if_true, herr, detailOr, hd]
    · simp only [AgentClient.request, hok, if_true, herr, detailOr, hd, if_pos rfl]
  · intro hok herr hne
    simp only [AgentClient.request, hok, if_true, herr, detailOr, if_neg hne]
  · intro hok herr he
    simp only [AgentClient.request, hok, if_true, herr, detailOr, if_pos he]
  · intro hok h204
    simp [AgentClient.request, hok, h204]
  · intro hok h204 v hbody
    simp only [AgentClient.request, hok, Bool.true_eq_false, if_false, if_neg h204, hbody]

/-- Witness for the amended C6 on concrete responses: each message rule,
the 204 rule, the parsed-body rule, and the two endpoint lines. -/
theorem C6_request_behaviour_witness :
    @AgentClient.request Unit
      { ok := false, status := 404, statusText := "Not Found",
        errorJson := Except.ok { detail := some "Persona not found" },
        bodyJson := Except.error () } = RequestResult.threw "Persona not found" ∧
    @AgentClient.request Unit
      { ok := false, status := 404, statusText := "Not Found",
        errorJson := Except.ok { detail := none },
        bodyJson := Except.error () } = RequestResult.threw ("HTTP " ++ toString 404) ∧
    @AgentClient.request Unit
      { ok := false, status := 500, statusText := "Internal Server Error",
        errorJson := Except.error (), bodyJson := Except.error () } =
      RequestResult.threw "Internal Server Error" ∧
    @AgentClient.request Unit
      { ok := false, status := 500, statusText := "",
        errorJson := Except.error (), bodyJson := Except.error () } =
      RequestResult.threw ("HTTP " ++ toString 500) ∧
    @AgentClient.request Unit
      { ok := true, status := 204, statusText := "",
        errorJson := Except.error (), bodyJson := Except.error () } =
      RequestResult.value none ∧
    @AgentClient.request Unit
      { ok := true, status := 200, statusText := "",
        errorJson := Except.error (), bodyJson := Except.ok () } =
      RequestResult.value (some ()) ∧
    AgentClient.getPersonaRequestLine "Wise Wizard" =
      ("GET", "/api/personas/" ++ encodeURIComponent "Wise Wizard") ∧
    AgentClient.deletePersonaRequestLine "Wise Wizard" =
      ("DELETE", "/api/personas/" ++ encodeURIComponent "Wise Wizard") := by
  refine ⟨?_, ?_, ?_, ?_, ?_, ?_, ?_, ?_⟩
  · exact (C6_request_behaviour _).1 rfl { detail := some "Persona not found" }
      "Persona not found" rfl rfl (by decide)
  · exact (C6_request_behaviour _).2.1 rfl { detail := none } rfl (Or.inl rfl)
  · exact (C6_request_behaviour _).2.2.1 rfl rfl (by decide)
  · exact (C6_request_behaviour _).2.2.2.1 rfl rfl rfl
  · exact (C6_request_behaviour _).2.2.2.2.1 rfl rfl
  · exact (C6_request_behaviour _).2.2.2.2.2.1 rfl (by decide) () rfl
  · exact (@C6_request_behaviour Unit ⟨true, 200, "", Except.error (), Except.ok ()⟩).2.2.2.2.2.2.1 "Wise Wizard"
  · exact (@C6_request_behaviour Unit ⟨true, 200, "", Except.error (), Except.ok ()⟩).2.2.2.2.2.2.2 "Wise Wizard"

/-- Claim C3: when a dispatched handler throws, `handleCommand` catches
the error, obtains the user-facing message from
`agentClient.interpretError` on the error's message (using the original
message when interpretation itself fails), and sends it as a single
ephemeral reply — a follow-up iff the interaction was already replied or
deferred. The handler ran exactly once and nothing is rethrown: the
outcome is an ordinary `HandleOutcome`. -/
theorem C3_handleCommand_catch (adminChannelName : String)
    (personaLookup : String → Option Persona)
    (interpretErrorCall : String → Option String → Option String → Except String String)
    (repliedOrDeferred : Bool) (i : Interaction) (errMsg : String)
    (hr : String × Option Persona)
    (hvalid : (validateCommandLocation adminChannelName personaLookup i).valid = true)
    (hdisp : dispatchHandler i
      (validateCommandLocation adminChannelName personaLookup i).persona = some hr) :
    ∃ userMessage,
      ((∃ m, interpretErrorCall errMsg (some ("Failed to execute /" ++ i.commandName))
          (Option.map Persona.name
            (validateCommandLocation adminChannelName personaLookup i).persona) =
            Except.ok m ∧ userMessage = m) ∨
       (∃ e, interpretErrorCall errMsg (some ("Failed to execute /" ++ i.commandName))
          (Option.map Persona.name
            (validateCommandLocation adminChannelName personaLookup i).persona) =
            Except.error e ∧ userMessage = errMsg)) ∧
      handleCommand adminChannelName personaLookup (Except.error errMsg)
          interpretErrorCall repliedOrDeferred i =
        { handlerRun := some hr,
          replies := [if repliedOrDeferred then BotReply.followUp userMessage true
                      else BotReply.reply userMessage true] } := by
  rcases hic : interpretErrorCall errMsg ("Failed to execute /" ++ i.commandName)
      (Option.map Persona.name
        (validateCommandLocation adminChannelName personaLookup i).persona)
      with e | m
  · refine ⟨errMsg, Or.inr ⟨e, rfl, rfl⟩, ?_⟩
    simp only [handleCommand, hvalid, Bool.true_eq_false, if_false, hdisp, hic]
  · refine ⟨m, Or.inl ⟨m, rfl, rfl⟩, ?_⟩
    simp only [handleCommand, hvalid, Bool.true_eq_false, if_false, hdisp, hic]

/-- Witness for C3 at a concrete input: `/memories` in a plain text
channel, the handler throws `"boom"`, the interaction was already
deferred, and interpretation succeeds. -/
theorem C3_handleCommand_catch_witness :
    ∃ userMessage,
      ((∃ m, sampleInterpretOk "boom"
          (some ("Failed to execute /" ++ sampleMemoriesInteraction.commandName))
          (Option.map Persona.name
            (validateCommandLocation "general" sampleLookup sampleMemoriesInteraction).persona) =
            Except.ok m ∧ userMessage = m) ∨
       (∃ e, sampleInterpretOk "boom"
          (some ("Failed to execute /" ++ sampleMemoriesInteraction.commandName))
          (Option.map Persona.name
            (validateCommandLocation "general" sampleLookup sampleMemoriesInteraction).persona) =
            Except.error e ∧ userMessage = "boom")) ∧
      handleCommand "general" sampleLookup (Except.error "boom") sampleInterpretOk true
          sampleMemoriesInteraction =
        { handlerRun := some ("handleMemories", none),
          replies := [if true then BotReply.followUp userMessage true
                      else BotReply.reply userMessage true] } :=
  C3_handleCommand_catch "general" sampleLookup sampleInterpretOk true
    sampleMemoriesInteraction "boom" ("handleMemories", none) (by decide) (by decide)

/-- Claim C8: auto-chat gating. `handlePersonaChannelMessage` sends a chat
request iff the author is not a bot, the channel resolves to a persona,
the content does not start with `/`, and the trimmed content is
non-empty; and on a successful chat response it replies iff
`should_respond` is set and the trimmed response text is non-empty,
otherwise it stays silent. -/
theorem C8_handlePersonaChannelMessage_gating
    (personaLookup : String → Option Persona)
    (chatCall : ChatRequest → Except String ChatResponse)
    (interpretCall : String → Option String → Option String → Except String String)
    (m : IncomingMessage) :
    ((handlePersonaChannelMessage personaLookup chatCall interpretCall m).chatRequest ≠
        none ↔
      (m.authorIsBot = false ∧ personaLookup m.channelId ≠ none ∧
        startsWithSlash m.content = false ∧ jsTrim m.content ≠ "")) ∧
    (∀ p resp, m.authorIsBot = false → personaLookup m.channelId = some p →
      startsWithSlash m.content = false → jsTrim m.content ≠ "" →
      chatCall (autoChatRequestOf p m) = Except.ok resp →
      handlePersonaChannelMessage personaLookup chatCall interpretCall m =
        { chatRequest := some (autoChatRequestOf p m),
          reply := if resp.should_respond && !(jsTrim resp.response == "")
                   then some resp.response else none }) := by
  constructor
  · constructor
    · intro hsome
      by_cases hbot : m.authorIsBot = true
      · simp only [handlePersonaChannelMessage, if_pos hbot] at hsome
        exact absurd rfl hsome
      · have hbot2 : m.authorIsBot = false := Bool.eq_false_iff.mpr hbot
        rcases hlook : personaLookup m.channelId with _ | p
        · simp only [handlePersonaChannelMessage, if_neg hbot, hlook] at hsome
          exact absurd rfl hsome
        · by_cases hsl : startsWithSlash m.content = true
          · simp only [handlePersonaChannelMessage, if_neg hbot, hlook,
              if_pos hsl] at hsome
            exact absurd rfl hsome
          · have hsl2 := Bool.eq_false_iff.mpr hsl
            by_cases htr : jsTrim m.content = ""
            · simp only [handlePersonaChannelMessage, if_neg hbot, hlook, if_neg hsl,
                if_pos htr] at hsome
              exact absurd rfl hsome
            · refine ⟨hbot2, ?_, hsl2, htr⟩
              intro h
              exact Option.noConfusion h
    · intro ⟨hbot, hlook, hsl, htr⟩
      rcases hlookv : personaLookup m.channelId with _ | p
      · exact absurd hlookv hlook
      · have hbotn : ¬ m.authorIsBot = true := by
          rw [hbot]
          exact Bool.false_ne_true
        have hsln : ¬ startsWithSlash m.content = true := by
          rw [hsl]
          exact Bool.false_ne_true
        simp only [handlePersonaChannelMessage, if_neg hbotn, hlookv, if_neg hsln,
          if_neg htr]
        rcases hcc : chatCall (autoChatRequestOf p m) with e | resp
        · rcases hint : interpretCall e (some "Failed to process your message")
              (some p.name) with e2 | interp
          · intro h
            simp [hint] at h
          · intro h
            simp [hint] at h
        · by_cases hresp : (resp.should_respond && !(jsTrim resp.response == "")) = true
          · simp only [if_pos hresp]
            intro h
            simp at h
          · simp only [if_neg hresp]
            intro h
            simp at h
  · intro p resp hbot hlook hsl htr hchat
    have hbotn : ¬ m.authorIsBot = true := by
      rw [hbot]
      exact Bool.false_ne_true
    have hsln : ¬ startsWithSlash m.content = true := by
      rw [hsl]
      exact Bool.false_ne_true
    simp only [handlePersonaChannelMessage, if_neg hbotn, hlook, if_neg hsln,
      if_neg htr, hchat]
    by_cases hresp : (resp.should_respond && !(jsTrim resp.response == "")) = true
    · rw [if_pos hresp, if_pos hresp]
    · rw [if_neg hresp, if_neg hresp]

/-- Witness for C8 at a concrete input: a human message in a persona
channel is forwarded, and the reply follows the `should_respond` /
non-empty-response rule. -/
theorem C8_handlePersonaChannelMessage_gating_witness :
    handlePersonaChannelMessage sampleLookup (fun _ => Except.ok sampleChatResponse)
        sampleInterpretOk sampleMessage =
      { chatRequest := some (autoChatRequestOf samplePersona sampleMessage),
        reply := if sampleChatResponse.should_respond &&
                    !(jsTrim sampleChatResponse.response == "")
                 then some sampleChatResponse.response else none } :=
  (C8_handlePersonaChannelMessage_gating sampleLookup
      (fun _ => Except.ok sampleChatResponse) sampleInterpretOk sampleMessage).2
    samplePersona sampleChatResponse rfl (by decide) (by decide) (by decide) rfl

/-- Claim C4 counterexample: `getSessionKey` is not injective on
(userId, personaName) pairs — the persona name is lowercased, so the
distinct pairs `("user42", "Alice")` and `("user42", "alice")` share one
key, and a second `/chat` overwrites the stored session of the first. -/
theorem C4_getSessionKey_counterexample :
    getSessionKey "user42" "Alice" = getSessionKey "user42" "alice" ∧
    ("Alice" == "alice") = false ∧
    handleChatStoreSession (handleChatStoreSession [] "user42" "alice" "sessA")
      "user42" "Alice" "sessB" = [("user42:alice", "sessB")] := by
  refine ⟨by decide, by decide, by decide⟩

theorem append_colon_inj (a : List Char) (b x y : List Char)
    (ha : ':' ∉ a) (hb : ':' ∉ b)
    (h : a ++ ':' :: x = b ++ ':' :: y) : a = b ∧ x = y := by
  induction a generalizing b with
  | nil =>
    cases b with
    | nil =>
      simp at h
      exact ⟨rfl, h⟩
    | cons d bs =>
      simp at h
      exact absurd (by rw [h.1]; exact List.mem_cons_self d bs) hb
  | cons c as ih =>
    cases b with
    | nil =>
      simp at h
      exact absurd (by rw [← h.1]; exact List.mem_cons_self c as) ha
    | cons d bs =>
      simp only [List.cons_append, List.cons.injEq] at h
      have has : ':' ∉ as := fun hm => ha (List.mem_cons_of_mem c hm)
      have hbs : ':' ∉ bs := fun hm => hb (List.mem_cons_of_mem d hm)
      obtain ⟨he, hx⟩ := ih bs has hbs h.2
      exact ⟨by rw [h.1, he], hx⟩

/-- Claim C4 (amended): for user ids containing no colon (Discord user
ids are numeric snowflakes), `getSessionKey` separates entries exactly up
to the case of the persona name: two pairs produce the same key iff the
user ids are equal and the lowercased persona names are equal — so
distinct users, or personas with different lowercased names, never share
a session entry. -/
theorem C4_getSessionKey_injective_up_to_case (u1 p1 u2 p2 : String)
    (h1 : ':' ∉ u1.data) (h2 : ':' ∉ u2.data) :
    getSessionKey u1 p1 = getSessionKey u2 p2 ↔
      u1 = u2 ∧ jsToLowerCase p1 = jsToLowerCase p2 := by
  constructor
  · intro h
    have hd := congrArg String.data h
    simp only [getSessionKey] at hd
    rw [String.data_append, String.data_append, String.data_append,
      String.data_append, List.append_assoc, List.append_assoc] at hd
    obtain ⟨he, hx⟩ := append_colon_inj u1.data u2.data (jsToLowerCase p1).data
      (jsToLowerCase p2).data h1 h2 hd
    exact ⟨String.ext he, String.ext hx⟩
  · intro ⟨he, hp⟩
    rw [getSessionKey, getSessionKey, he, hp]

/-- Witness for the amended C4 at concrete inputs: `"user42"` with
`"Wizard"` and `"wizard"` agree on the key exactly because the lowercased
names agree. -/
theorem C4_getSessionKey_injective_up_to_case_witness :
    getSessionKey "user42" "Wizard" = getSessionKey "user42" "wizard" ↔
      "user42" = "user42" ∧ jsToLowerCase "Wizard" = jsToLowerCase "wizard" :=
  C4_getSessionKey_injective_up_to_case "user42" "Wizard" "user42" "wizard"
    (by decide) (by decide)

theorem persona_cmd_not_admin_cmd (f : String)
    (h : PERSONA_CHANNEL_COMMANDS.contains f = true) :
    ADMIN_CHANNEL_COMMANDS.contains f = false := by
  have hm : f ∈ PERSONA_CHANNEL_COMMANDS := by simpa using h
  have : f = "persona edit" ∨ f = "imagine" ∨ f = "remember" := by
    simpa [PERSONA_CHANNEL_COMMANDS] using hm
  rcases this with rfl | rfl | rfl <;> decide

theorem validate_nonText (adminChannelName : String)
    (personaLookup : String → Option Persona) (i : Interaction)
    (hch : i.channel = InteractionChannel.noChannel ∨
      i.channel = InteractionChannel.other) :
    validateCommandLocation adminChannelName personaLookup i =
      { valid := false,
        error := some "This command must be used in a server text channel.",
        persona := none } := by
  rcases hch with hch | hch <;> simp only [validateCommandLocation, hch]

theorem validate_admin_cmd (adminChannelName : String)
    (personaLookup : String → Option Persona) (i : Interaction)
    (ch : GuildTextChannel) (hch : i.channel = InteractionChannel.text ch)
    (hadmin : ADMIN_CHANNEL_COMMANDS.contains (fullCommandOf i) = true) :
    validateCommandLocation adminChannelName personaLookup i =
      (if isAdminChannel ch.name adminChannelName then
        { valid := true, error := none, persona := none }
      else
        { valid := false,
          error := some ("This command can only be used in #" ++ adminChannelName),
          persona := none }) := by
  by_cases hadm : isAdminChannel ch.name adminChannelName = true
  · simp only [validateCommandLocation, hch, hadmin, if_true, hadm, Bool.not_true,
      Bool.false_eq_true, if_false, if_pos hadm]
  · have hadm2 : isAdminChannel ch.name adminChannelName = false :=
      Bool.eq_false_iff.mpr hadm
    simp only [validateCommandLocation, hch, hadmin, if_true, hadm2, Bool.not_false,
      if_true, if_neg hadm]
    rfl

theorem validate_persona_cmd (adminChannelName : String)
    (personaLookup : String → Option Persona) (i : Interaction)
    (ch : GuildTextChannel) (hch : i.channel = InteractionChannel.text ch)
    (hpc : PERSONA_CHANNEL_COMMANDS.contains (fullCommandOf i) = true) :
    validateCommandLocation adminChannelName personaLookup i =
      (match personaLookup ch.id with
       | some p => { valid := true, error := none, persona := some p }
       | none =>
         { valid := false,
           error := some "This command can only be used in a persona channel (under the Personas category).",
           persona := none }) := by
  have hadmin := persona_cmd_not_admin_cmd (fullCommandOf i) hpc
  simp only [validateCommandLocation, hch, hadmin, Bool.false_eq_true, if_false, hpc,
    if_true]

theorem validate_other_cmd (adminChannelName : String)
    (personaLookup : String → Option Persona) (i : Interaction)
    (ch : GuildTextChannel) (hch : i.channel = InteractionChannel.text ch)
    (hadmin : ADMIN_CHANNEL_COMMANDS.contains (fullCommandOf i) = false)
    (hpc : PERSONA_CHANNEL_COMMANDS.contains (fullCommandOf i) = false) :
    validateCommandLocation adminChannelName personaLookup i =
      { valid := true, error := none, persona := none } := by
  simp only [validateCommandLocation, hch, hadmin, Bool.false_eq_true, if_false, hpc]

theorem validate_invalid_error (adminChannelName : String)
    (personaLookup : String → Option Persona) (i : Interaction)
    (hv : (validateCommandLocation adminChannelName personaLookup i).valid = false) :
    ∃ err, (validateCommandLocation adminChannelName personaLookup i).error = some err := by
  rcases hch : i.channel with _ | ch | _
  · rw [validate_nonText adminChannelName personaLookup i (Or.inl hch)]
    exact ⟨_, rfl⟩
  · by_cases hadmin : ADMIN_CHANNEL_COMMANDS.contains (fullCommandOf i) = true
    · rw [validate_admin_cmd adminChannelName personaLookup i ch hch hadmin] at hv ⊢
      by_cases hadm : isAdminChannel ch.name adminChannelName = true
      · rw [if_pos hadm] at hv
        simp at hv
      · have hadm2 := Bool.eq_false_iff.mpr hadm
        rw [hadm2]
        simp only [Bool.false_eq_true, if_false]
        exact ⟨_, rfl⟩
    · have hadmin2 := Bool.eq_false_iff.mpr hadmin
      by_cases hpc : PERSONA_CHANNEL_COMMANDS.contains (fullCommandOf i) = true
      · rw [validate_persona_cmd adminChannelName personaLookup i ch hch hpc] at hv ⊢
        rcases hlook : personaLookup ch.id with _ | p
        · exact ⟨_, rfl⟩
        · rw [hlook] at hv
          simp at hv
      · have hpc2 := Bool.eq_false_iff.mpr hpc
        rw [validate_other_cmd adminChannelName personaLookup i ch hch hadmin2 hpc2] at hv
        simp at hv
  · rw [validate_nonText adminChannelName personaLookup i (Or.inr hch)]
    exact ⟨_, rfl⟩

theorem handleCommand_rejected (adminChannelName : String)
    (personaLookup : String → Option Persona) (handlerResult : Except String Unit)
    (interpretErrorCall : String → Option String → Option String → Except String String)
    (repliedOrDeferred : Bool) (i : Interaction) (err : String)
    (herr : (validateCommandLocation adminChannelName personaLookup i).error = some err)
    (hv : (validateCommandLocation adminChannelName personaLookup i).valid = false) :
    handleCommand adminChannelName personaLookup handlerResult interpretErrorCall
        repliedOrDeferred i =
      { handlerRun := none, replies := [BotReply.reply err true] } := by
  simp only [handleCommand, hv, herr, Option.getD]
  simp

theorem handleCommand_dispatched (adminChannelName : String)
    (personaLookup : String → Option Persona) (handlerResult : Except String Unit)
    (interpretErrorCall : String → Option String → Option String → Except String String)
    (repliedOrDeferred : Bool) (i : Interaction) (hr : String × Option Persona)
    (hv : (validateCommandLocation adminChannelName personaLookup i).valid = true)
    (hdisp : dispatchHandler i
      (validateCommandLocation adminChannelName personaLookup i).persona = some hr) :
    (handleCommand adminChannelName personaLookup handlerResult interpretErrorCall
        repliedOrDeferred i).handlerRun = some hr := by
  rcases handlerResult with e | u
  · rcases hic : interpretErrorCall e ("Failed to execute /" ++ i.commandName)
        (Option.map Persona.name
          (validateCommandLocation adminChannelName personaLookup i).persona)
        with e2 | m
    · simp only [handleCommand, hv, Bool.true_eq_false, if_false, hdisp, hic]
    · simp only [handleCommand, hv, Bool.true_eq_false, if_false, hdisp, hic]
  · simp only [handleCommand, hv, Bool.true_eq_false, if_false, hdisp]

/-- Claim C2 counterexample: `/remember` in a persona channel is accepted
with the channel's persona recorded by validation, yet `handleRemember`
is invoked with no persona argument — the persona is not passed to the
handler as the claim states. -/
theorem C2_remember_persona_counterexample :
    (validateCommandLocation "general" sampleLookup sampleRememberInteraction).valid =
      true ∧
    (validateCommandLocation "general" sampleLookup sampleRememberInteraction).persona =
      some samplePersona ∧
    handleCommand "general" sampleLookup (Except.ok ()) sampleInterpretOk false
        sampleRememberInteraction =
      { handlerRun := some ("handleRemember", none), replies := [] } := by
  refine ⟨by decide, by decide, by decide⟩

/-- Claim C2 (amended): command-location routing. Outside a guild text
channel every command is rejected with a single ephemeral error and no
handler runs; the four admin commands are accepted iff the channel name
equals the configured admin channel name case-insensitively; the three
persona-channel commands are accepted iff the channel resolves to a
persona, which validation records; every other command is accepted in any
guild text channel; any rejected interaction gets exactly one ephemeral
error reply and no handler. The recorded persona is passed on to the
handler for `/persona` and `/imagine`, while `/memories` and `/remember`
handlers are invoked with the interaction only. -/
theorem C2_command_location_routing (adminChannelName : String)
    (personaLookup : String → Option Persona) (handlerResult : Except String Unit)
    (interpretErrorCall : String → Option String → Option String → Except String String)
    (repliedOrDeferred : Bool) (i : Interaction) :
    ((i.channel = InteractionChannel.noChannel ∨
        i.channel = InteractionChannel.other) →
      handleCommand adminChannelName personaLookup handlerResult interpretErrorCall
          repliedOrDeferred i =
        { handlerRun := none,
          replies := [BotReply.reply
            "This command must be used in a server text channel." true] }) ∧
    (∀ ch, i.channel = InteractionChannel.text ch →
      ADMIN_CHANNEL_COMMANDS.contains (fullCommandOf i) = true →
      ((validateCommandLocation adminChannelName personaLookup i).valid = true ↔
        isAdminChannel ch.name adminChannelName = true)) ∧
    (∀ ch, i.channel = InteractionChannel.text ch →
      PERSONA_CHANNEL_COMMANDS.contains (fullCommandOf i) = true →
      (((validateCommandLocation adminChannelName personaLookup i).valid = true ↔
          personaLookup ch.id ≠ none) ∧
        (validateCommandLocation adminChannelName personaLookup i).persona =
          personaLookup ch.id)) ∧
    (∀ ch, i.channel = InteractionChannel.text ch →
      ADMIN_CHANNEL_COMMANDS.contains (fullCommandOf i) = false →
      PERSONA_CHANNEL_COMMANDS.contains (fullCommandOf i) = false →
      (validateCommandLocation adminChannelName personaLookup i).valid = true) ∧
    ((validateCommandLocation adminChannelName personaLookup i).valid = false →
      ∃ err, (validateCommandLocation adminChannelName personaLookup i).error =
          some err ∧
        handleCommand adminChannelName personaLookup handlerResult interpretErrorCall
            repliedOrDeferred i =
          { handlerRun := none, replies := [BotReply.reply err true] }) ∧
    ((validateCommandLocation adminChannelName personaLookup i).valid = true →
      (i.commandName = "persona" →
        (handleCommand adminChannelName personaLookup handlerResult interpretErrorCall
            repliedOrDeferred i).handlerRun =
          some ("handlePersonaCommand",
            (validateCommandLocation adminChannelName personaLookup i).persona)) ∧
      (i.commandName = "imagine" →
        (handleCommand adminChannelName personaLookup handlerResult interpretErrorCall
            repliedOrDeferred i).handlerRun =
          some ("handleImagine",
            (validateCommandLocation adminChannelName personaLookup i).persona)) ∧
      (i.commandName = "memories" →
        (handleCommand adminChannelName personaLookup handlerResult interpretErrorCall
            repliedOrDeferred i).handlerRun = some ("handleMemories", none)) ∧
      (i.commandName = "remember" →
        (handleCommand adminChannelName personaLookup handlerResult interpretErrorCall
            repliedOrDeferred i).handlerRun = some ("handleRemember", none))) := by
  refine ⟨?_, ?_, ?_, ?_, ?_, ?_⟩
  · intro hch
    have hval := validate_nonText adminChannelName personaLookup i hch
    exact handleCommand_rejected adminChannelName personaLookup handlerResult
      interpretErrorCall repliedOrDeferred i _ (by rw [hval]) (by rw [hval])
  · intro ch hch hadmin
    rw [validate_admin_cmd adminChannelName personaLookup i ch hch hadmin]
    by_cases hadm : isAdminChannel ch.name adminChannelName = true
    · rw [if_pos hadm]
      simp [hadm]
    · have hadm2 := Bool.eq_false_iff.mpr hadm
      rw [hadm2]
      simp
  · intro ch hch hpc
    rw [validate_persona_cmd adminChannelName personaLookup i ch hch hpc]
    rcases hlook : personaLookup ch.id with _ | p
    · simp
    · simp
  · intro ch hch hadmin hpc
    rw [validate_other_cmd adminChannelName personaLookup i ch hch hadmin hpc]
  · intro hv
    obtain ⟨err, herr⟩ :=
      validate_invalid_error adminChannelName personaLookup i hv
    exact ⟨err, herr, handleCommand_rejected adminChannelName personaLookup
      handlerResult interpretErrorCall repliedOrDeferred i err herr hv⟩
  · intro hv
    refine ⟨?_, ?_, ?_, ?_⟩ <;> intro hname <;>
      exact handleCommand_dispatched adminChannelName personaLookup handlerResult
        interpretErrorCall repliedOrDeferred i _ hv (by simp [dispatchHandler, hname])

/-- Witness for the amended C2 at concrete interactions: a DM is
rejected; `/persona list` in `#General` is accepted by the
case-insensitive admin check; `/remember` in the persona channel is
accepted with the persona recorded; `/memories` is accepted in a plain
channel; `/imagine` dispatch passes the recorded persona to the handler. -/
theorem C2_command_location_routing_witness :
    handleCommand "general" sampleLookup (Except.ok ()) sampleInterpretOk false
        { commandName := "imagine", subcommand := none,
          channel := InteractionChannel.noChannel } =
      { handlerRun := none,
        replies := [BotReply.reply
          "This command must be used in a server text channel." true] } ∧
    ((validateCommandLocation "general" sampleLookup samplePersonaListInteraction).valid =
        true ↔
      isAdminChannel (GuildTextChannel.mk "chan0" "General").name "general" = true) ∧
    (((validateCommandLocation "general" sampleLookup sampleRememberInteraction).valid =
          true ↔
        sampleLookup (GuildTextChannel.mk "chan1" "wise-wizard").id ≠ none) ∧
      (validateCommandLocation "general" sampleLookup sampleRememberInteraction).persona =
        sampleLookup (GuildTextChannel.mk "chan1" "wise-wizard").id) ∧
    (validateCommandLocation "general" sampleLookup sampleMemoriesInteraction).valid =
      true ∧
    (handleCommand "general" sampleLookup (Except.ok ()) sampleInterpretOk false
        sampleImagineInteraction).handlerRun =
      some ("handleImagine",
        (validateCommandLocation "general" sampleLookup sampleImagineInteraction).persona) :=
  ⟨(C2_command_location_routing "general" sampleLookup (Except.ok ()) sampleInterpretOk
      false { commandName := "imagine", subcommand := none,
              channel := InteractionChannel.noChannel }).1 (Or.inl rfl),
   (C2_command_location_routing "general" sampleLookup (Except.ok ()) sampleInterpretOk
      false samplePersonaListInteraction).2.1
     (GuildTextChannel.mk "chan0" "General") rfl (by decide),
   (C2_command_location_routing "general" sampleLookup (Except.ok ()) sampleInterpretOk
      false sampleRememberInteraction).2.2.1
     (GuildTextChannel.mk "chan1" "wise-wizard") rfl (by decide),
   (C2_command_location_routing "general" sampleLookup (Except.ok ()) sampleInterpretOk
      false sampleMemoriesInteraction).2.2.2.1
     (GuildTextChannel.mk "chan9" "random") rfl (by decide) (by decide),
   ((C2_command_location_routing "general" sampleLookup (Except.ok ()) sampleInterpretOk
      false sampleImagineInteraction).2.2.2.2.2 (by decide)).2.1 rfl⟩
